import Mathlib

/-!
Shallow embedding of `src/backend/distributed/planner/fast_path_select.c`
(Citus fast-path router planning for SELECT): the predicate-tree data model,
the conjunction matcher `ColumnMatchExpressionAtTopLevelConjunction`, the
eligibility classifier `FastPathRouterQuery`, and the placeholder plan
builder `GeneratePlaceHolderPlannedStmt`, together with theorems settling
the specification claims about them.

Collaborators of the source file that are not part of it (PostgreSQL node
utilities and the Citus metadata cache and clause helpers) are modelled from
the specification; each such definition carries a doc comment starting with
`Modelled from the spec:`.
-/

namespace FastPathSelect

/-- PostgreSQL object identifier. -/
abbrev Oid := Nat

def InvalidOid : Oid := 0

/-- A column reference (`Var`): the range-table slot of the table and the
attribute (column) number inside it. -/
structure Var where
  varno : Nat
  varattno : Nat
deriving DecidableEq

/-- Boolean connective tag of a `BoolExpr` node. -/
inductive BoolExprType where
  | AND_EXPR
  | OR_EXPR
  | NOT_EXPR
deriving DecidableEq

/-- Predicate-tree node (`Node`): a column reference, a constant (which
knows whether it is the statically-false boolean literal), a generic operator
call (operator id, the "simple/deterministic" flag excluding volatile
operators, argument list), or a boolean combination. -/
inductive Node where
  | var (v : Var)
  | const (constIsFalse : Bool)
  | opExpr (opno : Oid) (simple : Bool) (args : List Node)
  | boolExpr (boolop : BoolExprType) (args : List Node)

/-- Command kind of a query; only `CMD_SELECT` is in scope. -/
inductive CmdType where
  | CMD_SELECT
  | CMD_INSERT
  | CMD_UPDATE
  | CMD_DELETE
  | CMD_UTILITY
deriving DecidableEq

/-- Kind tag of a range-table entry: a plain table (`RTE_RELATION`) or any
other source. -/
inductive RTEKind where
  | RTE_RELATION
  | RTE_SUBQUERY
  | RTE_JOIN
  | RTE_FUNCTION
  | RTE_VALUES
  | RTE_CTE
deriving DecidableEq

/-- One entry of the query's range table. -/
structure RangeTblEntry where
  rtekind : RTEKind
  relid : Oid
deriving DecidableEq

/-- The query's join tree; only its qualifier (WHERE clause), possibly
absent, matters to this core. -/
structure FromExpr where
  quals : Option Node

/-- Heap address: models a pointer to a palloc'd node list. -/
abbrev Addr := Nat

/-- One output column of the query's target list. -/
structure TargetEntry where
  resno : Nat
  expr : Option Node

/-- The query record (`Query`): command kind, the disqualifying feature
flags, the range table, the join tree holding the WHERE clause, the target
list (held as an address into the object heap so that copy independence is
expressible), and bookkeeping fields passed through to the plan. -/
structure Query where
  commandType : CmdType
  cteList : List Nat
  hasSubLinks : Bool
  setOperations : Option Nat
  hasForUpdate : Bool
  hasTargetSRFs : Bool
  hasRowSecurity : Bool
  rtable : List RangeTblEntry
  jointree : Option FromExpr
  targetList : Addr
  queryId : Nat
  stmt_len : Nat

/-- Partitioning method of a distributed table. -/
inductive PartitionMethod where
  | DISTRIBUTE_BY_APPEND
  | DISTRIBUTE_BY_HASH
  | DISTRIBUTE_BY_RANGE
  | DISTRIBUTE_BY_NONE
deriving DecidableEq

/-- The slice of a `DistTableCacheEntry` this core reads: the partition
method and the shard count. -/
structure DistTableCacheEntry where
  partitionMethod : PartitionMethod
  shardIntervalArrayLength : Nat

/-- Modelled from the spec: the external table-metadata provider (the
metadata cache behind `DistributedTableCacheEntry` and `PartitionColumn`)
together with the operator-catalog predicate behind
`OperatorImplementsEquality`; all three are external collaborators of the
source file, re-expressed as an explicit read-only snapshot. -/
structure MetadataProvider where
  cacheEntryOf : Oid → DistTableCacheEntry
  partitionColumnOf : Oid → Option Var
  opImplementsEquality : Oid → Bool

/-- Modelled from the spec: metadata-cache lookup of a distributed table's
cache entry, keyed by table id. -/
def DistributedTableCacheEntry (md : MetadataProvider) (relationId : Oid) :
    DistTableCacheEntry :=
  md.cacheEntryOf relationId

/-- Modelled from the spec: the table's distribution (partition) column when
one exists; replicated tables have none. -/
def PartitionColumn (md : MetadataProvider) (relationId : Oid) : Option Var :=
  md.partitionColumnOf relationId

/-- Modelled from the spec: catalog test that the operator is semantically
equality. -/
def OperatorImplementsEquality (md : MetadataProvider) (opno : Oid) : Bool :=
  md.opImplementsEquality opno

/-- Modelled from the spec: `SimpleOpExpression` — the operator call is
"simple" when its operator is deterministic/non-volatile (the node's simple
flag) and it has exactly two arguments. Any other node is not simple. -/
def SimpleOpExpression (clause : Node) : Bool :=
  match clause with
  | Node.opExpr _ simple args => simple && decide (args.length = 2)
  | _ => false

/-- Modelled from the spec: `OpExpressionContainsColumn` — one of the
operator call's arguments resolves to the target column. -/
def OpExpressionContainsColumn (opExpr : Node) (column : Var) : Bool :=
  match opExpr with
  | Node.opExpr _ _ args =>
      args.any (fun argument =>
        match argument with
        | Node.var v => decide (v = column)
        | _ => false)
  | _ => false

mutual

/-- Body of `ColumnMatchExpressionAtTopLevelConjunction` on a non-NULL node.
An `OpExpr` matches iff it is simple, contains the column, and its operator
implements equality; a `BoolExpr` other than AND never matches and is not
descended into; an AND node matches iff some argument recursively matches;
all other nodes never match. -/
def ColumnMatchExpressionAtTopLevelConjunctionNode (md : MetadataProvider)
    (node : Node) (column : Var) : Bool :=
  match node with
  | Node.var _ => false
  | Node.const _ => false
  | Node.opExpr opno simple args =>
      if SimpleOpExpression (Node.opExpr opno simple args) = false then false
      else if OpExpressionContainsColumn (Node.opExpr opno simple args) column = false then
        false
      else OperatorImplementsEquality md opno
  | Node.boolExpr boolop argumentList =>
      if boolop ≠ BoolExprType.AND_EXPR then false
      else ColumnMatchAnyArgument md argumentList column

/-- The foreach loop inside `ColumnMatchExpressionAtTopLevelConjunction`
over an AND node's argument list: true as soon as some argument matches. -/
def ColumnMatchAnyArgument (md : MetadataProvider) (argumentList : List Node)
    (column : Var) : Bool :=
  match argumentList with
  | [] => false
  | argumentNode :: rest =>
      if ColumnMatchExpressionAtTopLevelConjunctionNode md argumentNode column then true
      else ColumnMatchAnyArgument md rest column

end

/-- `ColumnMatchExpressionAtTopLevelConjunction` (fast_path_select.c:235):
true iff the (possibly NULL) predicate tree contains a simple equality
expression on the given column whose match has an AND relation with the rest
of the expression tree; a NULL node never matches. -/
def ColumnMatchExpressionAtTopLevelConjunction (md : MetadataProvider)
    (node : Option Node) (column : Var) : Bool :=
  match node with
  | none => false
  | some n => ColumnMatchExpressionAtTopLevelConjunctionNode md n column

/-- Modelled from the spec: PostgreSQL `make_ands_implicit` — the top-level
conjunct list of a (possibly NULL) qualifier: NULL becomes the empty list, a
top-level AND node contributes its argument list, anything else is a
singleton list. (The original also elides a constant-TRUE qualifier; that
case is immaterial to the false-clause scan and omitted.) -/
def make_ands_implicit (clause : Option Node) : List Node :=
  match clause with
  | none => []
  | some (Node.boolExpr BoolExprType.AND_EXPR args) => args
  | some c => [c]

/-- Modelled from the spec: `ContainsFalseClause` — the qualifier statically
evaluates to constant false at its root: some top-level conjunct is the
boolean literal false. -/
def ContainsFalseClause (whereClauseList : List Node) : Bool :=
  whereClauseList.any (fun clause =>
    match clause with
    | Node.const constIsFalse => constIsFalse
    | _ => false)

mutual

/-- Worker of `pull_var_clause_default` on a non-NULL node: every column
reference anywhere in the tree, in traversal order. -/
def PullVarWalker (node : Node) : List Var :=
  match node with
  | Node.var v => [v]
  | Node.const _ => []
  | Node.opExpr _ _ args => PullVarWalkerList args
  | Node.boolExpr _ args => PullVarWalkerList args

/-- Worker of `pull_var_clause_default` on a node list. -/
def PullVarWalkerList (nodes : List Node) : List Var :=
  match nodes with
  | [] => []
  | a :: rest => PullVarWalker a ++ PullVarWalkerList rest

end

/-- Modelled from the spec: `pull_var_clause_default` — collects every
column reference in the (possibly NULL) predicate tree, descending through
every node kind including OR/NOT children and nested operator arguments. -/
def pull_var_clause_default (node : Option Node) : List Var :=
  match node with
  | none => []
  | some n => PullVarWalker n

/-- The counting loop of `FastPathRouterQuery` over the collected column
references: how many are equal to the distribution key (a NULL key matches
nothing); the loop's early return fires exactly when this count reaches 2. -/
def PartitionColumnReferenceCount (varClauseList : List Var)
    (distributionKey : Option Var) : Nat :=
  varClauseList.countP (fun column => decide (some column = distributionKey))

/-- Modelled from the spec: `ExtractRangeTableEntryWalker` — pulls every
range table entry from any part of the query; since the embedded Query
cannot nest subqueries (the sublink flag stands for them and is checked
first), this is the query's range table. -/
def ExtractRangeTableEntryWalker (query : Query) : List RangeTblEntry :=
  query.rtable

/-- `FastPathRouterQuery` (fast_path_select.c:106): the eligibility
classifier. Each early `return false` of the C function is one `if ... then
false` branch, in source order. -/
def FastPathRouterQuery (query : Query) (md : MetadataProvider) : Bool :=
  if query.commandType ≠ CmdType.CMD_SELECT ∨ query.cteList ≠ [] ∨
      query.hasSubLinks = true ∨ query.setOperations ≠ none ∨
      query.hasForUpdate = true ∨ query.hasTargetSRFs = true ∨
      query.hasRowSecurity = true then
    false
  else if (ExtractRangeTableEntryWalker query).length ≠ 1 then
    false
  else if query.rtable.length ≠ 1 then
    false
  else
    match query.rtable.head? with
    | none => false
    | some rangeTableEntry =>
      if rangeTableEntry.rtekind ≠ RTEKind.RTE_RELATION then
        false
      else if ¬((DistributedTableCacheEntry md rangeTableEntry.relid).partitionMethod =
                  PartitionMethod.DISTRIBUTE_BY_HASH ∨
                (DistributedTableCacheEntry md rangeTableEntry.relid).partitionMethod =
                  PartitionMethod.DISTRIBUTE_BY_NONE) then
        false
      else
        match query.jointree with
        | none => false
        | some joinTree =>
          if (DistributedTableCacheEntry md rangeTableEntry.relid).partitionMethod ≠
                PartitionMethod.DISTRIBUTE_BY_NONE ∧ joinTree.quals.isNone = true then
            false
          else if ContainsFalseClause (make_ands_implicit joinTree.quals) = true then
            false
          else if (match PartitionColumn md rangeTableEntry.relid with
                   | none => true
                   | some distributionKey =>
                       ColumnMatchExpressionAtTopLevelConjunction md joinTree.quals
                         distributionKey) = false then
            false
          else if 2 ≤ PartitionColumnReferenceCount
                        (pull_var_clause_default joinTree.quals)
                        (PartitionColumn md rangeTableEntry.relid) then
            false
          else if (DistributedTableCacheEntry md rangeTableEntry.relid).shardIntervalArrayLength = 0 then
            false
          else
            true

/-- Modelled from the spec: `ExtractFirstDistributedTableId` — resolves the
single referenced table's identifier from the query's range table. -/
def ExtractFirstDistributedTableId (parse : Query) : Oid :=
  match parse.rtable.head? with
  | some rangeTableEntry => rangeTableEntry.relid
  | none => InvalidOid

/-- Object heap in which target lists live: models the palloc'd memory that
`copyObject` allocates from, so that independence of the copied list from
the query's own list is expressible. -/
structure Heap where
  contents : Addr → List TargetEntry
  nextFree : Addr

def Heap.read (heap : Heap) (p : Addr) : List TargetEntry :=
  heap.contents p

def Heap.write (heap : Heap) (p : Addr) (value : List TargetEntry) : Heap :=
  { contents := fun a => if a = p then value else heap.contents a
    nextFree := heap.nextFree }

/-- Modelled from the spec: PostgreSQL `copyObject` on a target list in the
heap model — allocates a fresh cell holding the same value; the fresh
address is distinct from every address already in use. -/
def copyObject (heap : Heap) (source : Addr) : Addr × Heap :=
  (heap.nextFree,
   { contents := fun a => if a = heap.nextFree then heap.contents source else heap.contents a
     nextFree := heap.nextFree + 1 })

/-- The `Plan` fields set by the builder. -/
structure Plan where
  targetlist : Addr
  qual : Option Node
  lefttree : Option Nat
  righttree : Option Nat
  plan_node_id : Nat

/-- A sequential-scan plan node. -/
structure SeqScan where
  plan : Plan
  scanrelid : Nat

/-- The placeholder planned statement produced by the builder. -/
structure PlannedStmt where
  commandType : CmdType
  queryId : Nat
  stmt_len : Nat
  rtable : List RangeTblEntry
  planTree : SeqScan
  relationOids : List Oid

/-- `GeneratePlaceHolderPlannedStmt` (fast_path_select.c:60): builds the
placeholder planned statement. The `AssertArg(FastPathRouterQuery(parse))`
precondition is modelled as `none` (loud termination, no result) when the
classifier rejects the query; otherwise the target list is copied through
the heap and the stub is assembled exactly as in the source. The range
table, being immutable pure data in this model, is copied by value. -/
def GeneratePlaceHolderPlannedStmt (parse : Query) (md : MetadataProvider)
    (heap : Heap) : Option (PlannedStmt × Heap) :=
  if FastPathRouterQuery parse md = false then
    none
  else
    some
      ({ commandType := CmdType.CMD_SELECT
         queryId := parse.queryId
         stmt_len := parse.stmt_len
         rtable := parse.rtable
         planTree :=
           { plan :=
               { targetlist := (copyObject heap parse.targetList).fst
                 qual := none
                 lefttree := none
                 righttree := none
                 plan_node_id := 1 }
             scanrelid := 1 }
         relationOids := [ExtractFirstDistributedTableId parse] },
       (copyObject heap parse.targetList).snd)

/-- Spec-side: reachability from a node through AND combination nodes only
(the glossary's "top-level conjunction": reachable without crossing an OR or
a NOT node). -/
inductive AndReachable : Node → Node → Prop where
  | refl (node : Node) : AndReachable node node
  | step (args : List Node) (argument target : Node) (mem : argument ∈ args)
      (h : AndReachable argument target) :
      AndReachable (Node.boolExpr BoolExprType.AND_EXPR args) target

/-- Spec-side: the node is a "simple" two-argument operator call whose
operator is semantically equality and one of whose arguments is the target
column. -/
def IsSimpleEqualityMatch (md : MetadataProvider) (node : Node) (column : Var) : Prop :=
  ∃ opno simple args, node = Node.opExpr opno simple args ∧
    simple = true ∧ args.length = 2 ∧ Node.var column ∈ args ∧
    OperatorImplementsEquality md opno = true

/-! Concrete test fixtures: a hash-distributed table 100 whose distribution
column is `col1`, a replicated table with the same id, operator 96 standing
for integer equality and 97 for a non-equality comparison. -/

def col1 : Var := { varno := 1, varattno := 1 }

def col2 : Var := { varno := 1, varattno := 2 }

def eqOpno : Oid := 96

def ltOpno : Oid := 97

def hashMd : MetadataProvider :=
  { cacheEntryOf := fun _ =>
      { partitionMethod := PartitionMethod.DISTRIBUTE_BY_HASH
        shardIntervalArrayLength := 4 }
    partitionColumnOf := fun _ => some col1
    opImplementsEquality := fun opno => decide (opno = eqOpno) }

def refMd : MetadataProvider :=
  { cacheEntryOf := fun _ =>
      { partitionMethod := PartitionMethod.DISTRIBUTE_BY_NONE
        shardIntervalArrayLength := 4 }
    partitionColumnOf := fun _ => none
    opImplementsEquality := fun opno => decide (opno = eqOpno) }

/-- A flag-clean single-table SELECT over table 100 with the given
qualifier. -/
def baseQuery (quals : Option Node) : Query :=
  { commandType := CmdType.CMD_SELECT
    cteList := []
    hasSubLinks := false
    setOperations := none
    hasForUpdate := false
    hasTargetSRFs := false
    hasRowSecurity := false
    rtable := [{ rtekind := RTEKind.RTE_RELATION, relid := 100 }]
    jointree := some { quals := quals }
    targetList := 0
    queryId := 42
    stmt_len := 7 }

/-- `col1 = 5` as a simple equality operator call (the literal is a non-false
constant). -/
def eqCol1Five : Node := Node.opExpr eqOpno true [Node.var col1, Node.const false]

/-- `col1 = 6`, structurally another simple equality on `col1`. -/
def eqCol1Six : Node := Node.opExpr eqOpno true [Node.const false, Node.var col1]

/-- `col2 = 1`, a simple equality on the non-distribution column. -/
def eqCol2One : Node := Node.opExpr eqOpno true [Node.var col2, Node.const false]

mutual

/-- Spec-side: whether a false boolean constant occurs anywhere in the
predicate tree (at any depth, through any connective or argument list). -/
def containsFalseConstant (node : Node) : Bool :=
  match node with
  | Node.var _ => false
  | Node.const constIsFalse => constIsFalse
  | Node.opExpr _ _ args => listContainsFalseConstant args
  | Node.boolExpr _ args => listContainsFalseConstant args

/-- Spec-side list companion of `containsFalseConstant`. -/
def listContainsFalseConstant (nodes : List Node) : Bool :=
  match nodes with
  | [] => false
  | a :: rest => containsFalseConstant a || listContainsFalseConstant rest

end

/-- A qualifier whose false literal hides under an OR branch. -/
def cex3Quals : Node := Node.boolExpr BoolExprType.OR_EXPR [Node.const true, eqCol2One]

def rangeMd : MetadataProvider :=
  { cacheEntryOf := fun _ =>
      { partitionMethod := PartitionMethod.DISTRIBUTE_BY_RANGE
        shardIntervalArrayLength := 4 }
    partitionColumnOf := fun _ => some col1
    opImplementsEquality := fun opno => decide (opno = eqOpno) }

/-- The eligible point query `col1 = 5 AND col2 = 1` on the hash table. -/
def eligibleQuery : Query :=
  baseQuery (some (Node.boolExpr BoolExprType.AND_EXPR [eqCol1Five, eqCol2One]))

def sublinkQuery : Query := { baseQuery (some eqCol1Five) with hasSubLinks := true }

def twoTableQuery : Query :=
  { baseQuery (some eqCol1Five) with
      rtable := [{ rtekind := RTEKind.RTE_RELATION, relid := 100 },
                 { rtekind := RTEKind.RTE_RELATION, relid := 101 }] }

def subqueryRteQuery : Query :=
  { baseQuery (some eqCol1Five) with
      rtable := [{ rtekind := RTEKind.RTE_SUBQUERY, relid := 100 }] }

/-- `col1 = 5 OR col2 = 1`. -/
def orQuals : Node := Node.boolExpr BoolExprType.OR_EXPR [eqCol1Five, eqCol2One]

def heap0 : Heap := { contents := fun _ => [], nextFree := 1 }

/-- The plan stub the builder produces for `eligibleQuery` on `heap0`. -/
def stubResult : PlannedStmt :=
  { commandType := CmdType.CMD_SELECT
    queryId := 42
    stmt_len := 7
    rtable := [{ rtekind := RTEKind.RTE_RELATION, relid := 100 }]
    planTree :=
      { plan :=
          { targetlist := 1
            qual := none
            lefttree := none
            righttree := none
            plan_node_id := 1 }
        scanrelid := 1 }
    relationOids := [100] }

def heap1 : Heap := (copyObject heap0 eligibleQuery.targetList).snd

@[simp] theorem columnMatch_some (md : MetadataProvider) (n : Node) (column : Var) :
    ColumnMatchExpressionAtTopLevelConjunction md (some n) column =
      ColumnMatchExpressionAtTopLevelConjunctionNode md n column := rfl

@[simp] theorem columnMatch_none (md : MetadataProvider) (column : Var) :
    ColumnMatchExpressionAtTopLevelConjunction md none column = false := rfl

theorem andReachable_iff (node target : Node) :
    AndReachable node target ↔
      target = node ∨
      ∃ args, node = Node.boolExpr BoolExprType.AND_EXPR args ∧
        ∃ a ∈ args, AndReachable a target := by
  constructor
  · intro h
    cases h with
    | refl _ => exact Or.inl rfl
    | step args argument tgt mem h => exact Or.inr ⟨args, rfl, argument, mem, h⟩
  · rintro (rfl | ⟨args, rfl, a, mem, h⟩)
    · exact AndReachable.refl _
    · exact AndReachable.step args a _ mem h

theorem isSimpleEqualityMatch_opExpr (md : MetadataProvider) (opno : Oid)
    (simple : Bool) (args : List Node) (column : Var) :
    IsSimpleEqualityMatch md (Node.opExpr opno simple args) column ↔
      simple = true ∧ args.length = 2 ∧ Node.var column ∈ args ∧
        OperatorImplementsEquality md opno = true := by
  unfold IsSimpleEqualityMatch
  constructor
  · rintro ⟨o, s, a, heq, h⟩
    injection heq with h1 h2 h3
    subst h1; subst h2; subst h3
    exact h
  · intro h
    exact ⟨opno, simple, args, rfl, h⟩

theorem columnMatchAnyArgument_eq_any (md : MetadataProvider) (column : Var)
    (argumentList : List Node) :
    ColumnMatchAnyArgument md argumentList column =
      argumentList.any
        (fun a => ColumnMatchExpressionAtTopLevelConjunction md (some a) column) := by
  induction argumentList with
  | nil => simp [ColumnMatchAnyArgument]
  | cons a rest ih =>
    simp only [ColumnMatchAnyArgument, List.any_cons]
    cases hm : ColumnMatchExpressionAtTopLevelConjunctionNode md a column <;>
      simp [hm, ih]

theorem opExpressionContainsColumn_iff (opno : Oid) (simple : Bool)
    (args : List Node) (column : Var) :
    OpExpressionContainsColumn (Node.opExpr opno simple args) column = true ↔
      Node.var column ∈ args := by
  simp only [OpExpressionContainsColumn, List.any_eq_true]
  constructor
  · rintro ⟨a, ha, hm⟩
    cases a with
    | var v =>
      simp only [decide_eq_true_eq] at hm
      exact hm ▸ ha
    | const b => exact absurd hm (by simp)
    | opExpr o s aa => exact absurd hm (by simp)
    | boolExpr b aa => exact absurd hm (by simp)
  · intro h
    exact ⟨Node.var column, h, by simp⟩

theorem simpleOpExpression_opExpr_iff (opno : Oid) (simple : Bool) (args : List Node) :
    SimpleOpExpression (Node.opExpr opno simple args) = true ↔
      simple = true ∧ args.length = 2 := by
  simp [SimpleOpExpression]

theorem columnMatch_opExpr_eq (md : MetadataProvider) (column : Var) (opno : Oid)
    (simple : Bool) (args : List Node) :
    ColumnMatchExpressionAtTopLevelConjunction md (some (Node.opExpr opno simple args)) column =
      (SimpleOpExpression (Node.opExpr opno simple args) &&
       OpExpressionContainsColumn (Node.opExpr opno simple args) column &&
       OperatorImplementsEquality md opno) := by
  cases h1 : SimpleOpExpression (Node.opExpr opno simple args) <;>
    cases h2 : OpExpressionContainsColumn (Node.opExpr opno simple args) column <;>
      simp [ColumnMatchExpressionAtTopLevelConjunctionNode, h1, h2]

/-- A node that is not an AND combination reaches only itself through AND
nodes. -/
theorem andReachable_leaf_eq {node target : Node} (h : AndReachable node target)
    (hnot : ∀ args, node ≠ Node.boolExpr BoolExprType.AND_EXPR args) :
    target = node := by
  cases h with
  | refl _ => rfl
  | step args a t mem hh => exact absurd rfl (hnot args)

/-- The conjunction matcher agrees with the spec-side reachability reading:
it answers true exactly when some node reachable from the root through AND
nodes only is a simple equality on the target column. -/
theorem columnMatch_iff_reachable (md : MetadataProvider) (column : Var) (node : Node) :
    ColumnMatchExpressionAtTopLevelConjunction md (some node) column = true ↔
      ∃ target, AndReachable node target ∧ IsSimpleEqualityMatch md target column := by
  suffices H : ∀ (k : Nat) (node : Node), sizeOf node ≤ k →
      (ColumnMatchExpressionAtTopLevelConjunction md (some node) column = true ↔
        ∃ target, AndReachable node target ∧ IsSimpleEqualityMatch md target column) from
    H (sizeOf node) node le_rfl
  intro k
  induction k with
  | zero =>
    intro node h
    exfalso
    cases node <;> simp_arith at h
  | succ k ih =>
    intro node hsize
    cases node with
    | var v =>
      apply iff_of_false
      · simp [ColumnMatchExpressionAtTopLevelConjunctionNode]
      · rintro ⟨target, hr, hs⟩
        have ht : target = Node.var v :=
          andReachable_leaf_eq hr (fun a h => Node.noConfusion h)
        subst ht
        rcases hs with ⟨o, s, a, heq, _⟩
        exact Node.noConfusion heq
    | const b =>
      apply iff_of_false
      · simp [ColumnMatchExpressionAtTopLevelConjunctionNode]
      · rintro ⟨target, hr, hs⟩
        have ht : target = Node.const b :=
          andReachable_leaf_eq hr (fun a h => Node.noConfusion h)
        subst ht
        rcases hs with ⟨o, s, a, heq, _⟩
        exact Node.noConfusion heq
    | opExpr opno simple args =>
      rw [columnMatch_opExpr_eq]
      constructor
      · intro h
        rw [Bool.and_eq_true, Bool.and_eq_true] at h
        obtain ⟨⟨h1, h2⟩, h3⟩ := h
        rw [simpleOpExpression_opExpr_iff] at h1
        rw [opExpressionContainsColumn_iff] at h2
        exact ⟨Node.opExpr opno simple args, AndReachable.refl _,
          (isSimpleEqualityMatch_opExpr md opno simple args column).2
            ⟨h1.1, h1.2, h2, h3⟩⟩
      · rintro ⟨target, hr, hs⟩
        have ht : target = Node.opExpr opno simple args :=
          andReachable_leaf_eq hr (fun a h => Node.noConfusion h)
        subst ht
        obtain ⟨hs1, hs2, hs3, hs4⟩ :=
          (isSimpleEqualityMatch_opExpr md opno simple args column).1 hs
        rw [Bool.and_eq_true, Bool.and_eq_true]
        exact ⟨⟨(simpleOpExpression_opExpr_iff _ _ _).2 ⟨hs1, hs2⟩,
          (opExpressionContainsColumn_iff _ _ _ _).2 hs3⟩, hs4⟩
    | boolExpr bop args =>
      cases bop with
      | AND_EXPR =>
        have hmatch : ColumnMatchExpressionAtTopLevelConjunction md
            (some (Node.boolExpr BoolExprType.AND_EXPR args)) column =
            ColumnMatchAnyArgument md args column := by
          simp [ColumnMatchExpressionAtTopLevelConjunctionNode]
        have hargsize : ∀ a ∈ args, sizeOf a ≤ k := by
          intro a ha
          have h1 := List.sizeOf_lt_of_mem ha
          have h2 : sizeOf (Node.boolExpr BoolExprType.AND_EXPR args) =
              1 + sizeOf BoolExprType.AND_EXPR + sizeOf args := by simp
          have h3 : sizeOf BoolExprType.AND_EXPR = 1 := by simp_arith
          omega
        rw [hmatch, columnMatchAnyArgument_eq_any, List.any_eq_true]
        constructor
        · rintro ⟨a, ha, hm⟩
          obtain ⟨target, hr, hs⟩ := (ih a (hargsize a ha)).1 hm
          exact ⟨target, AndReachable.step args a target ha hr, hs⟩
        · rintro ⟨target, hr, hs⟩
          rw [andReachable_iff] at hr
          rcases hr with rfl | ⟨args', heq, a, ha, hr⟩
          · rcases hs with ⟨o, s, aa, heq, _⟩
            exact Node.noConfusion heq
          · injection heq with h1 h2
            subst h2
            exact ⟨a, ha, (ih a (hargsize a ha)).2 ⟨target, hr, hs⟩⟩
      | OR_EXPR =>
        apply iff_of_false
        · simp [ColumnMatchExpressionAtTopLevelConjunctionNode]
        · rintro ⟨target, hr, hs⟩
          have ht : target = Node.boolExpr BoolExprType.OR_EXPR args := by
            refine andReachable_leaf_eq hr (fun a h => ?_)
            injection h with h1 h2
            exact BoolExprType.noConfusion h1
          subst ht
          rcases hs with ⟨o, s, aa, heq, _⟩
          exact Node.noConfusion heq
      | NOT_EXPR =>
        apply iff_of_false
        · simp [ColumnMatchExpressionAtTopLevelConjunctionNode]
        · rintro ⟨target, hr, hs⟩
          have ht : target = Node.boolExpr BoolExprType.NOT_EXPR args := by
            refine andReachable_leaf_eq hr (fun a h => ?_)
            injection h with h1 h2
            exact BoolExprType.noConfusion h1
          subst ht
          rcases hs with ⟨o, s, aa, heq, _⟩
          exact Node.noConfusion heq

theorem mem_pullVarWalkerList_of_mem {a : Node} {args : List Node} (ha : a ∈ args)
    {v : Var} (hv : v ∈ PullVarWalker a) : v ∈ PullVarWalkerList args := by
  induction args with
  | nil => cases ha
  | cons b rest ih =>
    simp only [PullVarWalkerList, List.mem_append]
    rcases List.mem_cons.1 ha with heq | hmem
    · exact Or.inl (heq ▸ hv)
    · exact Or.inr (ih hmem)

/-- Every column reference of a node reachable through AND nodes is a column
reference of the root. -/
theorem pullVars_subset_of_andReachable {node target : Node}
    (h : AndReachable node target) :
    ∀ v ∈ PullVarWalker target, v ∈ PullVarWalker node := by
  induction h with
  | refl _ => exact fun v hv => hv
  | step args a t mem hh ih =>
    intro v hv
    show v ∈ PullVarWalker (Node.boolExpr BoolExprType.AND_EXPR args)
    simp only [PullVarWalker]
    exact mem_pullVarWalkerList_of_mem mem (ih v hv)

/-- A successful conjunction match guarantees that the column occurs among
the collected column references of the tree. -/
theorem columnMatch_mem_pullVars {md : MetadataProvider} {column : Var} {node : Node}
    (h : ColumnMatchExpressionAtTopLevelConjunction md (some node) column = true) :
    column ∈ PullVarWalker node := by
  obtain ⟨target, hr, hs⟩ := (columnMatch_iff_reachable md column node).1 h
  obtain ⟨o, s, args, rfl, _, _, hmem, _⟩ := hs
  apply pullVars_subset_of_andReachable hr
  simp only [PullVarWalker]
  exact mem_pullVarWalkerList_of_mem hmem (by simp [PullVarWalker])

theorem partitionCount_pos_of_mem {l : List Var} {key : Var} (h : key ∈ l) :
    1 ≤ PartitionColumnReferenceCount l (some key) := by
  unfold PartitionColumnReferenceCount
  exact List.countP_pos_iff.2 ⟨key, h, by simp⟩

theorem partitionCount_none (l : List Var) :
    PartitionColumnReferenceCount l none = 0 := by
  unfold PartitionColumnReferenceCount
  exact List.countP_eq_zero.2 (by simp)

/-- Everything a positive classifier verdict guarantees, read off the chain
of early returns of `FastPathRouterQuery` in source order. -/
theorem fastPathRouterQuery_true_inversion {query : Query} {md : MetadataProvider}
    (h : FastPathRouterQuery query md = true) :
    query.commandType = CmdType.CMD_SELECT ∧ query.cteList = [] ∧
    query.hasSubLinks = false ∧ query.setOperations = none ∧
    query.hasForUpdate = false ∧ query.hasTargetSRFs = false ∧
    query.hasRowSecurity = false ∧
    ∃ rangeTableEntry joinTree,
      query.rtable = [rangeTableEntry] ∧
      rangeTableEntry.rtekind = RTEKind.RTE_RELATION ∧
      query.jointree = some joinTree ∧
      ((DistributedTableCacheEntry md rangeTableEntry.relid).partitionMethod =
          PartitionMethod.DISTRIBUTE_BY_HASH ∨
       (DistributedTableCacheEntry md rangeTableEntry.relid).partitionMethod =
          PartitionMethod.DISTRIBUTE_BY_NONE) ∧
      ((DistributedTableCacheEntry md rangeTableEntry.relid).partitionMethod =
          PartitionMethod.DISTRIBUTE_BY_NONE ∨ joinTree.quals.isNone = false) ∧
      ContainsFalseClause (make_ands_implicit joinTree.quals) = false ∧
      (∀ key, PartitionColumn md rangeTableEntry.relid = some key →
         ColumnMatchExpressionAtTopLevelConjunction md joinTree.quals key = true) ∧
      PartitionColumnReferenceCount (pull_var_clause_default joinTree.quals)
        (PartitionColumn md rangeTableEntry.relid) ≤ 1 ∧
      (DistributedTableCacheEntry md rangeTableEntry.relid).shardIntervalArrayLength ≠ 0 := by
  unfold FastPathRouterQuery at h
  split at h
  next hflags => exact Bool.noConfusion h
  next hflags =>
  split at h
  next hlen1 => exact Bool.noConfusion h
  next hlen1 =>
  split at h
  next hlen2 => exact Bool.noConfusion h
  next hlen2 =>
  split at h
  next hhead => exact Bool.noConfusion h
  next rangeTableEntry hhead =>
  split at h
  next hkind => exact Bool.noConfusion h
  next hkind =>
  split at h
  next hmethod => exact Bool.noConfusion h
  next hmethod =>
  split at h
  next hjt => exact Bool.noConfusion h
  next joinTree hjt =>
  split at h
  next hqual => exact Bool.noConfusion h
  next hqual =>
  split at h
  next hfalse => exact Bool.noConfusion h
  next hfalse =>
  split at h
  next hmatch => exact Bool.noConfusion h
  next hmatch =>
  split at h
  next hcount => exact Bool.noConfusion h
  next hcount =>
  split at h
  next hshard => exact Bool.noConfusion h
  next hshard =>
  simp only [not_or, ne_eq, not_not, Bool.not_eq_true] at hflags
  obtain ⟨hc, hcte, hsub, hset, hfu, hsrf, hrs⟩ := hflags
  have hrt : query.rtable = [rangeTableEntry] := by
    have hlen : query.rtable.length = 1 := not_not.1 hlen2
    obtain ⟨a, ha⟩ := List.length_eq_one.1 hlen
    rw [ha] at hhead
    simp only [List.head?_cons, Option.some.injEq] at hhead
    rw [ha, hhead]
  refine ⟨hc, hcte, hsub, hset, hfu, hsrf, hrs,
    rangeTableEntry, joinTree, hrt, not_not.1 (by simpa using hkind), hjt,
    not_not.1 hmethod, ?_, ?_, ?_, ?_, hshard⟩
  · by_cases hm : (DistributedTableCacheEntry md rangeTableEntry.relid).partitionMethod =
        PartitionMethod.DISTRIBUTE_BY_NONE
    · exact Or.inl hm
    · right
      cases hq : joinTree.quals.isNone
      · rfl
      · exact absurd ⟨hm, hq⟩ hqual
  · cases hcf : ContainsFalseClause (make_ands_implicit joinTree.quals)
    · rfl
    · exact absurd hcf hfalse
  · intro key hk
    have hmatchT : (match PartitionColumn md rangeTableEntry.relid with
        | none => true
        | some distributionKey =>
            ColumnMatchExpressionAtTopLevelConjunction md joinTree.quals
              distributionKey) = true := by
      cases hmm : (match PartitionColumn md rangeTableEntry.relid with
          | none => true
          | some distributionKey =>
              ColumnMatchExpressionAtTopLevelConjunction md joinTree.quals
                distributionKey)
      · exact absurd hmm hmatch
      · rfl
    rw [hk] at hmatchT
    exact hmatchT
  · omega

/-- A replicated (NONE-method) table with clear feature flags, a present
join tree, a qualifier that does not statically contain false at top level,
no distribution column, and at least one shard is always classified
eligible, whatever the shape of its qualifier. -/
theorem fastPath_true_of_none_method {query : Query} {md : MetadataProvider}
    {rangeTableEntry : RangeTblEntry} {joinTree : FromExpr}
    (hc : query.commandType = CmdType.CMD_SELECT) (hcte : query.cteList = [])
    (hsub : query.hasSubLinks = false) (hset : query.setOperations = none)
    (hfu : query.hasForUpdate = false) (hsrf : query.hasTargetSRFs = false)
    (hrs : query.hasRowSecurity = false)
    (hrt : query.rtable = [rangeTableEntry])
    (hkind : rangeTableEntry.rtekind = RTEKind.RTE_RELATION)
    (hmethod : (DistributedTableCacheEntry md rangeTableEntry.relid).partitionMethod =
        PartitionMethod.DISTRIBUTE_BY_NONE)
    (hcol : PartitionColumn md rangeTableEntry.relid = none)
    (hjt : query.jointree = some joinTree)
    (hfalse : ContainsFalseClause (make_ands_implicit joinTree.quals) = false)
    (hshard : 1 ≤ (DistributedTableCacheEntry md rangeTableEntry.relid).shardIntervalArrayLength) :
    FastPathRouterQuery query md = true := by
  have hne : (DistributedTableCacheEntry md rangeTableEntry.relid).shardIntervalArrayLength ≠ 0 := by
    omega
  unfold FastPathRouterQuery
  rw [hrt, hjt]
  simp [ExtractRangeTableEntryWalker, hrt, hc, hcte, hsub, hset, hfu, hsrf, hrs,
    hkind, hmethod, hcol, hfalse, hne, partitionCount_none]

/-- C1: the conjunction matcher, applied to a predicate tree root, returns
true iff some node reachable from the root through AND combination nodes
only is a simple two-argument operator call whose operator is semantically
equality and one of whose arguments is the target column; an AND node
matches iff some child recursively matches, an OR or NOT node returns false
without descending, and a column reference or constant never matches. -/
theorem claim_C1_conjunction_matcher (md : MetadataProvider) (column : Var) :
    (∀ node : Node,
       ColumnMatchExpressionAtTopLevelConjunction md (some node) column = true ↔
         ∃ target, AndReachable node target ∧ IsSimpleEqualityMatch md target column) ∧
    (∀ args : List Node,
       ColumnMatchExpressionAtTopLevelConjunction md
           (some (Node.boolExpr BoolExprType.AND_EXPR args)) column =
         args.any (fun a => ColumnMatchExpressionAtTopLevelConjunction md (some a) column)) ∧
    (∀ args : List Node,
       ColumnMatchExpressionAtTopLevelConjunction md
           (some (Node.boolExpr BoolExprType.OR_EXPR args)) column = false) ∧
    (∀ args : List Node,
       ColumnMatchExpressionAtTopLevelConjunction md
           (some (Node.boolExpr BoolExprType.NOT_EXPR args)) column = false) ∧
    (∀ v : Var,
       ColumnMatchExpressionAtTopLevelConjunction md (some (Node.var v)) column = false) ∧
    (∀ b : Bool,
       ColumnMatchExpressionAtTopLevelConjunction md (some (Node.const b)) column = false) := by
  refine ⟨columnMatch_iff_reachable md column, ?_, ?_, ?_, ?_, ?_⟩
  · intro args
    simp [ColumnMatchExpressionAtTopLevelConjunctionNode, columnMatchAnyArgument_eq_any]
  · intro args
    simp [ColumnMatchExpressionAtTopLevelConjunctionNode]
  · intro args
    simp [ColumnMatchExpressionAtTopLevelConjunctionNode]
  · intro v
    rfl
  · intro b
    rfl

/-- C2: on a hash-partitioned table with a distribution column, a positive
classification forces the distribution column to occur exactly once among
the column references of the whole predicate tree, with the conjunction
matcher succeeding on it; and the two-occurrence predicate
`col1 = 5 AND col1 = 6` is classified false. -/
theorem claim_C2_distribution_column_exactly_once :
    (∀ (query : Query) (md : MetadataProvider) (rangeTableEntry : RangeTblEntry) (key : Var),
       query.rtable = [rangeTableEntry] →
       (DistributedTableCacheEntry md rangeTableEntry.relid).partitionMethod =
         PartitionMethod.DISTRIBUTE_BY_HASH →
       PartitionColumn md rangeTableEntry.relid = some key →
       FastPathRouterQuery query md = true →
       ∃ joinTree, query.jointree = some joinTree ∧
         PartitionColumnReferenceCount (pull_var_clause_default joinTree.quals)
           (some key) = 1 ∧
         ColumnMatchExpressionAtTopLevelConjunction md joinTree.quals key = true) ∧
    FastPathRouterQuery (baseQuery (some (Node.boolExpr BoolExprType.AND_EXPR
      [eqCol1Five, eqCol1Six]))) hashMd = false := by
  constructor
  · intro query md rte key hrt hhash hkey h
    obtain ⟨_, _, _, _, _, _, _, rte', jt, hrt', hkind, hjt, _, _, _, hmatch, hcount, _⟩ :=
      fastPathRouterQuery_true_inversion h
    rw [hrt] at hrt'
    injection hrt' with h1 h2
    subst h1
    have hm : ColumnMatchExpressionAtTopLevelConjunction md jt.quals key = true :=
      hmatch key hkey
    rw [hkey] at hcount
    have hpos : 1 ≤ PartitionColumnReferenceCount (pull_var_clause_default jt.quals)
        (some key) := by
      cases hq : jt.quals with
      | none => rw [hq] at hm; exact Bool.noConfusion hm
      | some q =>
        rw [hq] at hm
        have hmem : key ∈ PullVarWalker q := columnMatch_mem_pullVars hm
        exact partitionCount_pos_of_mem hmem
    exact ⟨jt, hjt, by omega, hm⟩
  · decide

/-- C3 counterexample: a replicated-table query whose predicate tree
contains a statically-false constant (inside an OR branch) is still
classified eligible, so a false constant "anywhere" does not force a false
verdict. -/
theorem claim_C3_counterexample :
    containsFalseConstant cex3Quals = true ∧
    FastPathRouterQuery (baseQuery (some cex3Quals)) refMd = true := by
  exact ⟨by decide, by decide⟩

/-- C3 amended: a statically-false constant at the top level of the
qualifier's conjunct list — the bare literal false, or a literal false among
the arguments of a root AND node — forces a false verdict; a false constant
nested deeper (e.g. under an OR) does not by itself disqualify. -/
theorem claim_C3_amended {query : Query} {md : MetadataProvider} {joinTree : FromExpr}
    (hjt : query.jointree = some joinTree)
    (hfalse : ContainsFalseClause (make_ands_implicit joinTree.quals) = true) :
    FastPathRouterQuery query md = false := by
  cases hfp : FastPathRouterQuery query md
  · rfl
  · exfalso
    obtain ⟨_, _, _, _, _, _, _, rte, jt, _, _, hjt', _, _, hcf, _, _, _⟩ :=
      fastPathRouterQuery_true_inversion hfp
    rw [hjt] at hjt'
    injection hjt' with h1
    subst h1
    rw [hcf] at hfalse
    exact Bool.noConfusion hfalse

/-- C3 amended, witnessed at the bare literal false on a hash table. -/
theorem claim_C3_amended_witness :
    ContainsFalseClause (make_ands_implicit (some (Node.const true))) = true ∧
    FastPathRouterQuery (baseQuery (some (Node.const true))) hashMd = false :=
  ⟨by decide, @claim_C3_amended (baseQuery (some (Node.const true))) hashMd
    { quals := some (Node.const true) } rfl (by decide)⟩

/-- C4: a hash-partitioned table with an empty or absent predicate tree is
always rejected; a replicated table with clear flags, no distribution
column, and an empty predicate is classified eligible exactly when it has at
least one shard. -/
theorem claim_C4_empty_predicate :
    (∀ (query : Query) (md : MetadataProvider) (rangeTableEntry : RangeTblEntry),
       query.rtable = [rangeTableEntry] →
       (DistributedTableCacheEntry md rangeTableEntry.relid).partitionMethod =
         PartitionMethod.DISTRIBUTE_BY_HASH →
       (∀ joinTree, query.jointree = some joinTree → joinTree.quals = none) →
       FastPathRouterQuery query md = false) ∧
    (∀ (query : Query) (md : MetadataProvider) (rangeTableEntry : RangeTblEntry)
       (joinTree : FromExpr),
       query.commandType = CmdType.CMD_SELECT → query.cteList = [] →
       query.hasSubLinks = false → query.setOperations = none →
       query.hasForUpdate = false → query.hasTargetSRFs = false →
       query.hasRowSecurity = false →
       query.rtable = [rangeTableEntry] →
       rangeTableEntry.rtekind = RTEKind.RTE_RELATION →
       (DistributedTableCacheEntry md rangeTableEntry.relid).partitionMethod =
         PartitionMethod.DISTRIBUTE_BY_NONE →
       PartitionColumn md rangeTableEntry.relid = none →
       query.jointree = some joinTree → joinTree.quals = none →
       (FastPathRouterQuery query md = true ↔
         1 ≤ (DistributedTableCacheEntry md rangeTableEntry.relid).shardIntervalArrayLength)) := by
  constructor
  · intro query md rte hrt hhash hquals
    cases hfp : FastPathRouterQuery query md
    · rfl
    · exfalso
      obtain ⟨_, _, _, _, _, _, _, rte', jt, hrt', _, hjt, _, hcond, _, _, _, _⟩ :=
        fastPathRouterQuery_true_inversion hfp
      rw [hrt] at hrt'
      injection hrt' with h1 h2
      subst h1
      rcases hcond with hnone | hq
      · rw [hhash] at hnone
        exact PartitionMethod.noConfusion hnone
      · have := hquals jt hjt
        rw [this] at hq
        exact Bool.noConfusion hq
  · intro query md rte jt hc hcte hsub hset hfu hsrf hrs hrt hkind hmethod hcol hjt hquals
    constructor
    · intro h
      obtain ⟨_, _, _, _, _, _, _, rte', jt', hrt', _, _, _, _, _, _, _, hshard⟩ :=
        fastPathRouterQuery_true_inversion h
      rw [hrt] at hrt'
      injection hrt' with h1 h2
      subst h1
      omega
    · intro hshard
      refine fastPath_true_of_none_method hc hcte hsub hset hfu hsrf hrs hrt hkind
        hmethod hcol hjt ?_ hshard
      rw [hquals]
      decide

/-- C5: a table whose partition method is RANGE or APPEND is always
rejected by the classifier. -/
theorem claim_C5_range_append_rejected (query : Query) (md : MetadataProvider)
    (rangeTableEntry : RangeTblEntry)
    (hrt : query.rtable = [rangeTableEntry])
    (hm : (DistributedTableCacheEntry md rangeTableEntry.relid).partitionMethod =
            PartitionMethod.DISTRIBUTE_BY_RANGE ∨
          (DistributedTableCacheEntry md rangeTableEntry.relid).partitionMethod =
            PartitionMethod.DISTRIBUTE_BY_APPEND) :
    FastPathRouterQuery query md = false := by
  cases hfp : FastPathRouterQuery query md
  · rfl
  · exfalso
    obtain ⟨_, _, _, _, _, _, _, rte', jt, hrt', _, _, hmethod, _, _, _, _, _⟩ :=
      fastPathRouterQuery_true_inversion hfp
    rw [hrt] at hrt'
    injection hrt' with h1 h2
    subst h1
    rcases hm with h | h <;> rcases hmethod with h' | h' <;> rw [h] at h' <;>
      exact PartitionMethod.noConfusion h'

/-- C6: a non-SELECT command or any of the disqualifying feature flags
(CTE, sublink, set operation, for-update, set-returning target, row
security) forces a false verdict, whatever the rest of the query looks
like. -/
theorem claim_C6_flag_rejections (query : Query) (md : MetadataProvider)
    (h : query.commandType ≠ CmdType.CMD_SELECT ∨ query.cteList ≠ [] ∨
         query.hasSubLinks = true ∨ query.setOperations ≠ none ∨
         query.hasForUpdate = true ∨ query.hasTargetSRFs = true ∨
         query.hasRowSecurity = true) :
    FastPathRouterQuery query md = false := by
  cases hfp : FastPathRouterQuery query md
  · rfl
  · exfalso
    obtain ⟨hc, hcte, hsub, hset, hfu, hsrf, hrs, _⟩ :=
      fastPathRouterQuery_true_inversion hfp
    rcases h with h | h | h | h | h | h | h <;> simp_all

/-- C7: a positive verdict implies the range table is a single plain-table
entry; a query with more than one table reference, or whose sole reference
is a subquery, join, or function source, is rejected. -/
theorem claim_C7_single_plain_table :
    (∀ (query : Query) (md : MetadataProvider),
       FastPathRouterQuery query md = true →
       ∃ rangeTableEntry, query.rtable = [rangeTableEntry] ∧
         rangeTableEntry.rtekind = RTEKind.RTE_RELATION) ∧
    (∀ (query : Query) (md : MetadataProvider),
       2 ≤ query.rtable.length → FastPathRouterQuery query md = false) ∧
    (∀ (query : Query) (md : MetadataProvider) (rangeTableEntry : RangeTblEntry),
       query.rtable = [rangeTableEntry] →
       (rangeTableEntry.rtekind = RTEKind.RTE_SUBQUERY ∨
        rangeTableEntry.rtekind = RTEKind.RTE_JOIN ∨
        rangeTableEntry.rtekind = RTEKind.RTE_FUNCTION) →
       FastPathRouterQuery query md = false) := by
  refine ⟨?_, ?_, ?_⟩
  · intro query md h
    obtain ⟨_, _, _, _, _, _, _, rte, jt, hrt, hkind, _⟩ :=
      fastPathRouterQuery_true_inversion h
    exact ⟨rte, hrt, hkind⟩
  · intro query md hlen
    cases hfp : FastPathRouterQuery query md
    · rfl
    · exfalso
      obtain ⟨_, _, _, _, _, _, _, rte, jt, hrt, _⟩ :=
        fastPathRouterQuery_true_inversion hfp
      rw [hrt] at hlen
      simp at hlen
  · intro query md rte hrt hkinds
    cases hfp : FastPathRouterQuery query md
    · rfl
    · exfalso
      obtain ⟨_, _, _, _, _, _, _, rte', jt, hrt', hkind, _⟩ :=
        fastPathRouterQuery_true_inversion hfp
      rw [hrt] at hrt'
      injection hrt' with h1 h2
      subst h1
      rcases hkinds with h | h | h <;> simp_all

/-- C8: the placeholder builder treats a prior positive classification of
the very same query as a fatal precondition: on a rejected query the
assertion fires and no result is produced, and on an eligible query the
builder always succeeds with a plan stub. -/
theorem claim_C8_builder_precondition (parse : Query) (md : MetadataProvider)
    (heap : Heap) :
    (FastPathRouterQuery parse md = false →
      GeneratePlaceHolderPlannedStmt parse md heap = none) ∧
    (FastPathRouterQuery parse md = true →
      ∃ result heap2,
        GeneratePlaceHolderPlannedStmt parse md heap = some (result, heap2)) := by
  constructor
  · intro h
    unfold GeneratePlaceHolderPlannedStmt
    rw [if_pos h]
  · intro h
    unfold GeneratePlaceHolderPlannedStmt
    rw [if_neg (by simp [h])]
    exact ⟨_, _, rfl⟩

/-- C9: the stub's target list is an independent copy: it lives at a fresh
address, holds the same value as the query's list, overwriting it never
changes the query's list, and building the stub leaves every pre-existing
heap cell (the query's state included) unchanged. -/
theorem claim_C9_target_list_copy_independence
    (parse : Query) (md : MetadataProvider) (heap : Heap)
    (result : PlannedStmt) (heap2 : Heap)
    (hvalid : parse.targetList < heap.nextFree)
    (hrun : GeneratePlaceHolderPlannedStmt parse md heap = some (result, heap2)) :
    result.planTree.plan.targetlist ≠ parse.targetList ∧
    Heap.read heap2 result.planTree.plan.targetlist = Heap.read heap parse.targetList ∧
    (∀ newValue : List TargetEntry,
      Heap.read (Heap.write heap2 result.planTree.plan.targetlist newValue)
        parse.targetList = Heap.read heap parse.targetList) ∧
    (∀ p : Addr, p < heap.nextFree → Heap.read heap2 p = Heap.read heap p) := by
  unfold GeneratePlaceHolderPlannedStmt at hrun
  split at hrun
  · exact Option.noConfusion hrun
  next hcond =>
    have hp := Option.some.inj hrun
    rw [Prod.mk.injEq] at hp
    obtain ⟨hres, hheap⟩ := hp
    subst hres
    subst hheap
    have hne : parse.targetList ≠ heap.nextFree := Nat.ne_of_lt hvalid
    refine ⟨?_, ?_, ?_, ?_⟩
    · show heap.nextFree ≠ parse.targetList
      exact hne.symm
    · show Heap.read (copyObject heap parse.targetList).snd heap.nextFree =
        Heap.read heap parse.targetList
      simp [Heap.read, copyObject]
    · intro newValue
      show Heap.read (Heap.write (copyObject heap parse.targetList).snd
          heap.nextFree newValue) parse.targetList = Heap.read heap parse.targetList
      simp [Heap.read, Heap.write, copyObject, hne]
    · intro p hplt
      have hpne : p ≠ heap.nextFree := Nat.ne_of_lt hplt
      show Heap.read (copyObject heap parse.targetList).snd p = Heap.read heap p
      simp [Heap.read, copyObject, hpne]

/-- C10: when the metadata yields no distribution column, the classifier
imposes no shape requirement on the qualifier beyond the statically-false
top-level check: any predicate tree (OR branches, negations, non-equality
operators, or none at all) is accepted once the flag, table, method and
shard checks pass. -/
theorem claim_C10_replicated_no_shape_requirement
    (query : Query) (md : MetadataProvider) (rangeTableEntry : RangeTblEntry)
    (joinTree : FromExpr)
    (hc : query.commandType = CmdType.CMD_SELECT) (hcte : query.cteList = [])
    (hsub : query.hasSubLinks = false) (hset : query.setOperations = none)
    (hfu : query.hasForUpdate = false) (hsrf : query.hasTargetSRFs = false)
    (hrs : query.hasRowSecurity = false)
    (hrt : query.rtable = [rangeTableEntry])
    (hkind : rangeTableEntry.rtekind = RTEKind.RTE_RELATION)
    (hmethod : (DistributedTableCacheEntry md rangeTableEntry.relid).partitionMethod =
        PartitionMethod.DISTRIBUTE_BY_NONE)
    (hcol : PartitionColumn md rangeTableEntry.relid = none)
    (hjt : query.jointree = some joinTree)
    (hfalse : ContainsFalseClause (make_ands_implicit joinTree.quals) = false)
    (hshard : 1 ≤ (DistributedTableCacheEntry md rangeTableEntry.relid).shardIntervalArrayLength) :
    FastPathRouterQuery query md = true :=
  fastPath_true_of_none_method hc hcte hsub hset hfu hsrf hrs hrt hkind hmethod
    hcol hjt hfalse hshard

/-- C2 witnessed on the eligible point query. -/
theorem claim_C2_witness :
    ∃ joinTree, eligibleQuery.jointree = some joinTree ∧
      PartitionColumnReferenceCount (pull_var_clause_default joinTree.quals)
        (some col1) = 1 ∧
      ColumnMatchExpressionAtTopLevelConjunction hashMd joinTree.quals col1 = true :=
  claim_C2_distribution_column_exactly_once.1 eligibleQuery hashMd
    { rtekind := RTEKind.RTE_RELATION, relid := 100 } col1 rfl rfl rfl (by decide)

/-- C4 witnessed: an empty predicate on the hash table is rejected, and on
the replicated table eligibility reduces to the shard count. -/
theorem claim_C4_witness :
    FastPathRouterQuery (baseQuery none) hashMd = false ∧
    (FastPathRouterQuery (baseQuery none) refMd = true ↔
      1 ≤ (DistributedTableCacheEntry refMd 100).shardIntervalArrayLength) :=
  ⟨claim_C4_empty_predicate.1 (baseQuery none) hashMd
     { rtekind := RTEKind.RTE_RELATION, relid := 100 } rfl rfl
     (fun jt hjt => by injection hjt with h; rw [← h]),
   claim_C4_empty_predicate.2 (baseQuery none) refMd
     { rtekind := RTEKind.RTE_RELATION, relid := 100 } { quals := none }
     rfl rfl rfl rfl rfl rfl rfl rfl rfl rfl rfl rfl rfl⟩

/-- C5 witnessed on a range-distributed table. -/
theorem claim_C5_witness :
    FastPathRouterQuery (baseQuery (some eqCol1Five)) rangeMd = false :=
  claim_C5_range_append_rejected (baseQuery (some eqCol1Five)) rangeMd
    { rtekind := RTEKind.RTE_RELATION, relid := 100 } rfl (Or.inl rfl)

/-- C6 witnessed on a query with a sublink. -/
theorem claim_C6_witness :
    sublinkQuery.hasSubLinks = true ∧
    FastPathRouterQuery sublinkQuery hashMd = false :=
  ⟨rfl, claim_C6_flag_rejections sublinkQuery hashMd (Or.inr (Or.inr (Or.inl rfl)))⟩

/-- C7 witnessed: the eligible query's single plain-table entry, a
two-table query rejected, a subquery-sourced query rejected. -/
theorem claim_C7_witness :
    (∃ rangeTableEntry, eligibleQuery.rtable = [rangeTableEntry] ∧
       rangeTableEntry.rtekind = RTEKind.RTE_RELATION) ∧
    FastPathRouterQuery twoTableQuery hashMd = false ∧
    FastPathRouterQuery subqueryRteQuery hashMd = false :=
  ⟨claim_C7_single_plain_table.1 eligibleQuery hashMd (by decide),
   claim_C7_single_plain_table.2.1 twoTableQuery hashMd (by decide),
   claim_C7_single_plain_table.2.2 subqueryRteQuery hashMd
     { rtekind := RTEKind.RTE_SUBQUERY, relid := 100 } rfl (Or.inl rfl)⟩

/-- C8 witnessed: the builder aborts on the rejected empty-predicate hash
query and succeeds on the eligible point query. -/
theorem claim_C8_witness :
    GeneratePlaceHolderPlannedStmt (baseQuery none) hashMd heap0 = none ∧
    ∃ result heap2,
      GeneratePlaceHolderPlannedStmt eligibleQuery hashMd heap0 = some (result, heap2) :=
  ⟨(claim_C8_builder_precondition (baseQuery none) hashMd heap0).1 (by decide),
   (claim_C8_builder_precondition eligibleQuery hashMd heap0).2 (by decide)⟩

/-- C9 witnessed on the eligible point query and a one-cell heap. -/
theorem claim_C9_witness :
    eligibleQuery.targetList < heap0.nextFree ∧
    stubResult.planTree.plan.targetlist ≠ eligibleQuery.targetList ∧
    Heap.read (Heap.write heap1 stubResult.planTree.plan.targetlist [])
      eligibleQuery.targetList = Heap.read heap0 eligibleQuery.targetList := by
  refine ⟨by decide, ?_, ?_⟩
  · exact (claim_C9_target_list_copy_independence eligibleQuery hashMd heap0
      stubResult heap1 (by decide) rfl).1
  · exact (claim_C9_target_list_copy_independence eligibleQuery hashMd heap0
      stubResult heap1 (by decide) rfl).2.2.1 []

/-- C10 witnessed on `col1 = 5 OR col2 = 1` over the replicated table. -/
theorem claim_C10_witness :
    FastPathRouterQuery (baseQuery (some orQuals)) refMd = true :=
  claim_C10_replicated_no_shape_requirement (baseQuery (some orQuals)) refMd
    { rtekind := RTEKind.RTE_RELATION, relid := 100 } { quals := some orQuals }
    rfl rfl rfl rfl rfl rfl rfl rfl rfl rfl rfl rfl (by decide) (by decide)

end FastPathSelect
